import Mathlib

/-!
Verification development for the cdp repository: a shallow embedding of the
CDP connection engine (request/response correlation, event queue) and the
instance lifecycle supervisor (start, escalating stop, registry record
handling), with theorems settling the specification claims.

The definitions are translated from the Go source:
  internal cdp connection file (CDPMessage, CDPConn, DialCDP, readLoop,
  Send, Close, AttachToTarget, package-level Send, Listen) and the
  instance supervisor file (StopInstance, StartBrowser, port probing).
External effects (socket reads, process signals, file removal) are modelled
as environment oracles and explicit action traces.
-/

namespace CDP

/-- Wire message shape, from the CDPMessage struct: id, method, params,
sessionId, result, error. Opaque JSON payloads are modelled as strings. -/
structure CDPError where
  code : Int
  message : String
  deriving DecidableEq

structure CDPMessage where
  id : Int
  method : String
  params : Option String
  sessionId : String
  result : Option String
  error : Option CDPError
  deriving DecidableEq

/-- Event queue capacity, from DialCDP: make(chan *CDPMessage, 100). -/
def eventCapacity : Nat := 100

/-- Non-blocking enqueue into the bounded event queue, from readLoop's
select with a default branch: on a full queue the event is dropped. -/
def enqueueEvent (q : List CDPMessage) (m : CDPMessage) : List CDPMessage :=
  if q.length < eventCapacity then q ++ [m] else q

/-- Reader-visible connection state: the pending table (request id mapped to
the waiting caller's slot, callers named by tokens), the event queue when
event capture is enabled, and the closed flag. -/
structure ReadState where
  pending : List (Int × Nat)
  events : Option (List CDPMessage)
  closed : Bool
  deriving DecidableEq

/-- Go map lookup on the pending table (Pending[msg.ID]). -/
def lookupKey : List (Int × Nat) → Int → Option Nat
  | [], _ => none
  | e :: rest, i => if e.1 = i then some e.2 else lookupKey rest i

/-- Go map delete on the pending table (delete(c.Pending, id)). -/
def removeKey : List (Int × Nat) → Int → List (Int × Nat)
  | [], _ => []
  | e :: rest, i => if e.1 = i then removeKey rest i else e :: removeKey rest i

/-- One iteration of readLoop on a decoded frame: a message with id not 0 is
delivered to the matching pending slot and the slot is removed (no slot:
silently dropped); a message with method set is enqueued non-blockingly when
event capture is on and the connection is not closed. -/
def processMessage (st : ReadState) (msg : CDPMessage) :
    ReadState × Option (Nat × CDPMessage) :=
  if msg.id ≠ 0 then
    match lookupKey st.pending msg.id with
    | some c => ({ st with pending := removeKey st.pending msg.id }, some (c, msg))
    | none => (st, none)
  else if msg.method ≠ "" then
    match st.events with
    | some q =>
      if st.closed = false then
        ({ st with events := some (enqueueEvent q msg) }, none)
      else (st, none)
    | none => (st, none)
  else (st, none)

/-- The reader task over a sequence of decoded frames, collecting the
deliveries (caller token, message) it makes. -/
def runReader : ReadState → List CDPMessage → ReadState × List (Nat × CDPMessage)
  | st, [] => (st, [])
  | st, msg :: rest =>
    let p := processMessage st msg
    let r := runReader p.1 rest
    (r.1, match p.2 with | some d => d :: r.2 | none => r.2)

/-- Initial value of the NextID counter, from DialCDP: NextID: 1. -/
def initialNextId : Int := 1

/-- One id allocation, from Send: id := atomic.AddInt64(&c.NextID, 1).
AddInt64 returns the new (incremented) value, which becomes the request id. -/
def allocId (nextId : Int) : Int × Int :=
  (nextId + 1, nextId + 1)

/-- The sequence of ids produced by n successive (linearized atomic)
allocations starting from a given counter value. -/
def allocIds : Nat → Int → List Int
  | 0, _ => []
  | n + 1, cur => (allocId cur).2 :: allocIds n (allocId cur).1

/-- Errors a Send caller can observe, from Send's return paths. -/
inductive SendErr
  | connClosed
  | writeFailed
  | ctxCancelled
  deriving DecidableEq

/-- Which arm of Send's select fires first: delivery into the slot, the slot
being closed by the reader's teardown, or the caller context completing. -/
inductive SendEvent
  | delivered (m : CDPMessage)
  | slotClosed
  | ctxDone
  deriving DecidableEq

/-- Send's wait (the select at the end of Send): delivery returns the
message; a closed slot returns the connection-closed error; context
completion deregisters the pending slot and returns the context error. -/
def sendAwait (pending : List (Int × Nat)) (id : Int) (ev : SendEvent) :
    List (Int × Nat) × Except SendErr CDPMessage :=
  match ev with
  | .delivered m => (pending, .ok m)
  | .slotClosed => (pending, .error .connClosed)
  | .ctxDone => (removeKey pending id, .error .ctxCancelled)

/-- Environment for one AttachToTarget call: whether the underlying Send
succeeded, the protocol-level error on the attach response, whether the
result payload decoded, and the session id it carried. -/
structure AttachEnv where
  transportOk : Bool
  protoErr : Option CDPError
  parseOk : Bool
  sessionId : String
  deriving DecidableEq

/-- AttachToTarget: sends the attach command; a transport failure or a
protocol-level error on the attach response (surfaced verbatim) or a decode
failure is an error; otherwise the session id is returned. -/
def attachToTarget (env : AttachEnv) : Except String String :=
  if env.transportOk = false then .error "send failed"
  else
    match env.protoErr with
    | some e => .error ("attach error: " ++ e.message)
    | none => if env.parseOk = false then .error "decode failed" else .ok env.sessionId

/-- Actions of the one-shot command dispatcher, in order of occurrence. -/
inductive DispAction
  | dial
  | attach (target : String)
  | command (sessionId : String)
  | closeConn
  deriving DecidableEq

def isCommand : DispAction → Bool
  | .command _ => true
  | _ => false

/-- Environment for one dispatcher run: whether the dial succeeded, the
attach call's environment, and the command's transported response (none
models a transport/timeout failure of the command Send). -/
structure DispatchEnv where
  dialOk : Bool
  attach : AttachEnv
  cmdResp : Option CDPMessage
  deriving DecidableEq

/-- The package-level one-shot Send: dial without events; if target is
non-empty and not the literal "browser", attach first; issue the single
command with the obtained session id (empty otherwise); the raw response is
returned as a success even when it carries a protocol-level error object;
the deferred Close runs on every path after a successful dial. -/
def dispatchSend (target : String) (env : DispatchEnv) :
    Except String CDPMessage × List DispAction :=
  if env.dialOk = false then (.error "connecting", [])
  else if target ≠ "" ∧ target ≠ "browser" then
    match attachToTarget env.attach with
    | .error e => (.error ("attaching to target: " ++ e), [.dial, .attach target, .closeConn])
    | .ok sid =>
      match env.cmdResp with
      | none => (.error "sending command", [.dial, .attach target, .command sid, .closeConn])
      | some resp => (.ok resp, [.dial, .attach target, .command sid, .closeConn])
  else
    match env.cmdResp with
    | none => (.error "sending command", [.dial, .command "", .closeConn])
    | some resp => (.ok resp, [.dial, .command "", .closeConn])

/-- Actions of the event listener's setup phase. -/
inductive ListenAction
  | dial
  | attach (target : String)
  | enable (method : String) (sessionId : String)
  | closeConn
  deriving DecidableEq

/-- Environment for one Listen setup: dial result, attach environment, and
the transported response to the domain-enable command. -/
structure ListenEnv where
  dialOk : Bool
  attach : AttachEnv
  enableResp : Option CDPMessage
  deriving DecidableEq

/-- Listen's setup phase: dial with events; attach whenever target is
non-empty (no "browser" sentinel here, unlike the dispatcher); send
domain.enable with the obtained session id; a protocol-level error on the
enable response is a reported failure; the deferred Close runs on every
path after a successful dial (success means the relay loop was reached and
the close happens when it ends). -/
def listenSetup (target domain : String) (env : ListenEnv) :
    Option String × List ListenAction :=
  if env.dialOk = false then (some "connecting", [])
  else if target ≠ "" then
    match attachToTarget env.attach with
    | .error _ => (some "attaching to target", [.dial, .attach target, .closeConn])
    | .ok sid =>
      match env.enableResp with
      | none => (some "enabling", [.dial, .attach target, .enable (domain ++ ".enable") sid, .closeConn])
      | some resp =>
        match resp.error with
        | some e => (some ("enable error: " ++ e.message),
            [.dial, .attach target, .enable (domain ++ ".enable") sid, .closeConn])
        | none => (none, [.dial, .attach target, .enable (domain ++ ".enable") sid, .closeConn])
  else
    match env.enableResp with
    | none => (some "enabling", [.dial, .enable (domain ++ ".enable") "", .closeConn])
    | some resp =>
      match resp.error with
      | some e => (some ("enable error: " ++ e.message),
          [.dial, .enable (domain ++ ".enable") "", .closeConn])
      | none => (none, [.dial, .enable (domain ++ ".enable") "", .closeConn])

/-- Signals StopInstance can send, from proc.Signal(syscall.SIGTERM) and
proc.Kill(). -/
inductive Sig
  | term
  | kill
  deriving DecidableEq

/-- Observable actions of StopInstance. signalProcess is delivery to the
single process identified by pid (the os.Process API used by the code);
signalGroup (delivery to a whole process group) is expressible so that
claims about group delivery can be stated, but the code never produces it. -/
inductive StopAction
  | dialAttempt
  | sendClose
  | signalProcess (s : Sig) (pid : Int)
  | signalGroup (s : Sig) (pid : Int)
  | removeDir (d : String)
  | removeRecord
  deriving DecidableEq

/-- Environment for one StopInstance run: the loaded record's fields, the
OS temp root, and oracles for each external outcome (dial, Browser.close
send, FindProcess, the bounded waits, and the liveness probe). -/
structure StopEnv where
  loadOk : Bool
  wsUrl : String
  pid : Int
  userDataDir : String
  tempRoot : String
  dialOk : Bool
  closeAccepted : Bool
  findProcOk : Bool
  exitedInGraceWindow : Bool
  aliveAfterGrace : Bool
  findProcOk2 : Bool
  exitedInTermWindow : Bool
  deriving DecidableEq

/-- Graceful phase of StopInstance: when the record has a ws endpoint, dial
and send Browser.close; stopped is true exactly when the close was accepted,
FindProcess succeeded, and the process exit was observed within the 3s
window. -/
def gracefulPhase (env : StopEnv) : Bool × List StopAction :=
  if env.wsUrl ≠ "" then
    if env.dialOk = true then
      (env.closeAccepted && env.findProcOk && env.exitedInGraceWindow,
       [.dialAttempt, .sendClose])
    else (false, [.dialAttempt])
  else (false, [])

/-- Signal phase of StopInstance: when not stopped and the process is still
alive, send SIGTERM to the process and wait up to 5s; only on timeout send
SIGKILL to the process. -/
def signalPhase (env : StopEnv) (stopped : Bool) : List StopAction :=
  if stopped = false ∧ env.aliveAfterGrace = true then
    if env.findProcOk2 = true then
      if env.exitedInTermWindow = true then [.signalProcess .term env.pid]
      else [.signalProcess .term env.pid, .signalProcess .kill env.pid]
    else []
  else []

/-- Directory cleanup of StopInstance: remove the recorded user data dir
exactly when it is non-empty and the OS temp root is a prefix of it
(strings.HasPrefix(inst.UserDataDir, os.TempDir())). -/
def cleanupPhase (env : StopEnv) : List StopAction :=
  if env.userDataDir ≠ "" ∧ env.tempRoot.data <+: env.userDataDir.data then
    [.removeDir env.userDataDir]
  else []

/-- StopInstance: fails only when the record cannot be loaded; otherwise
runs the graceful, signal and cleanup phases (each failure merely falls
through), removes the registry record best-effort, and returns success. -/
def stopInstance (env : StopEnv) : Option String × List StopAction :=
  if env.loadOk = false then (some "instance not found", [])
  else
    let g := gracefulPhase env
    (none, g.2 ++ signalPhase env g.1 ++ cleanupPhase env ++ [.removeRecord])

/-- Environment for one StartBrowser run: binary resolution, name conflict
check, temp dir creation, the generated temp dir name, process launch,
readiness wait, ws url fetch, and record persistence. -/
structure StartEnv where
  binaryOk : Bool
  nameExists : Bool
  mkdirTempOk : Bool
  tmpName : String
  launchOk : Bool
  waitPortOk : Bool
  wsUrlOk : Bool
  saveOk : Bool
  deriving DecidableEq

/-- Observable actions of StartBrowser. -/
inductive StartAction
  | mkTempDir (d : String)
  | launch
  | killProc
  | removeDir (d : String)
  | saveRecord
  deriving DecidableEq

/-- StartBrowser's working-directory handling: a caller-supplied directory
is used as-is and the cleanup closure removes nothing; an empty caller
directory makes a fresh temp dir which every post-launch failure path
removes. On success the returned value is the directory recorded in the
persisted Instance (its UserDataDir field). -/
def startBrowser (callerDir : String) (env : StartEnv) :
    Option String × List StartAction :=
  if env.binaryOk = false then (none, [])
  else if env.nameExists = true then (none, [])
  else
    let tempDir : Bool := callerDir = ""
    let dir := if callerDir = "" then env.tmpName else callerDir
    if callerDir = "" ∧ env.mkdirTempOk = false then (none, [])
    else
      let pre : List StartAction := if callerDir = "" then [.mkTempDir dir] else []
      let cleanup : List StartAction := if tempDir = true then [.removeDir dir] else []
      if env.launchOk = false then (none, pre ++ [.launch] ++ cleanup)
      else if env.waitPortOk = false then (none, pre ++ [.launch, .killProc] ++ cleanup)
      else if env.wsUrlOk = false then (none, pre ++ [.launch, .killProc] ++ cleanup)
      else if env.saveOk = false then (none, pre ++ [.launch, .killProc] ++ cleanup)
      else (some dir, pre ++ [.launch, .saveRecord])

/-- Default debugging port, from StartBrowser: port = 9222. -/
def defaultPort : Nat := 9222

/-- The port probe loop of StartBrowser: up to the given number of attempts,
an HTTP GET on the status endpoint that fails (nothing answering) selects
the current port; an answering port advances to the next one. -/
def probePorts (occupied : Nat → Bool) : Nat → Nat → Nat
  | 0, port => port
  | n + 1, port => if occupied port then probePorts occupied n (port + 1) else port

/-- StartBrowser's port choice: a caller-supplied non-zero port is used
as-is; otherwise probe sequentially from the default port, bounded to 100
attempts. -/
def choosePort (optPort : Nat) (occupied : Nat → Bool) : Nat :=
  if optPort ≠ 0 then optPort else probePorts occupied 100 defaultPort

/-- Occupancy pattern with exactly ports 9222 and 9223 answering. -/
def occTwo : Nat → Bool := fun p => p == 9222 || p == 9223

/-- Stop environment: graceful close accepted but the exit not observed
within the window, the process still alive, and the terminate wait also
timing out. -/
def envStopEscalate : StopEnv :=
  { loadOk := true, wsUrl := "ws://127.0.0.1:9222/devtools/browser/abc", pid := 42,
    userDataDir := "", tempRoot := "/tmp", dialOk := true, closeAccepted := true,
    findProcOk := true, exitedInGraceWindow := false, aliveAfterGrace := true,
    findProcOk2 := true, exitedInTermWindow := false }

/-- Start environment in which every external step succeeds. -/
def envStartOk : StartEnv :=
  { binaryOk := true, nameExists := false, mkdirTempOk := true,
    tmpName := "/tmp/cdp-browser-ab12-", launchOk := true, waitPortOk := true,
    wsUrlOk := true, saveOk := true }

/-- Stop environment for a record whose user data dir was supplied by the
caller but happens to live under the OS temp root. -/
def envStopCallerTmp : StopEnv :=
  { loadOk := true, wsUrl := "", pid := 7, userDataDir := "/tmp/myprofile",
    tempRoot := "/tmp", dialOk := false, closeAccepted := false,
    findProcOk := false, exitedInGraceWindow := false, aliveAfterGrace := false,
    findProcOk2 := false, exitedInTermWindow := false }

/-- Stop environment whose record fails to load. -/
def envStopNoRecord : StopEnv :=
  { loadOk := false, wsUrl := "", pid := 7, userDataDir := "", tempRoot := "/tmp",
    dialOk := false, closeAccepted := false, findProcOk := false,
    exitedInGraceWindow := false, aliveAfterGrace := false, findProcOk2 := false,
    exitedInTermWindow := false }

/-- Dispatch environment: dial and attach succeed, and the command's
response arrives carrying a protocol-level error object. -/
def envDispProtoErr : DispatchEnv :=
  { dialOk := true,
    attach := { transportOk := true, protoErr := none, parseOk := true, sessionId := "sess-1" },
    cmdResp := some { id := 2, method := "", params := none, sessionId := "",
                      result := none, error := some { code := -32601, message := "method not found" } } }

/-- Listen environment: dial, attach and enable all succeed. -/
def envListenOk : ListenEnv :=
  { dialOk := true,
    attach := { transportOk := true, protoErr := none, parseOk := true, sessionId := "sess-2" },
    enableResp := some { id := 3, method := "", params := none, sessionId := "",
                         result := some "\x7b\x7d", error := none } }

/-- A sample event-shaped message (no id, method set). -/
def sampleEvent : CDPMessage :=
  { id := 0, method := "Page.loadEventFired", params := none, sessionId := "",
    result := none, error := none }

/-- A sample response message with the given id. -/
def sampleResp (i : Int) : CDPMessage :=
  { id := i, method := "", params := none, sessionId := "", result := some "ok",
    error := none }

theorem lookupKey_eq_some {p : List (Int × Nat)} {i : Int} {c : Nat}
    (h : lookupKey p i = some c) : (i, c) ∈ p := by
  induction p with
  | nil => simp [lookupKey] at h
  | cons e rest ih =>
    rw [lookupKey] at h
    split at h
    · next he =>
      have h2 := Option.some.inj h
      have he2 : (i, c) = e := Prod.ext he.symm h2.symm
      rw [he2]
      exact List.mem_cons_self _ _
    · exact List.mem_cons_of_mem _ (ih h)

theorem lookupKey_of_mem_nodup {p : List (Int × Nat)} {i : Int} {c : Nat}
    (hnd : (p.map Prod.fst).Nodup) (h : (i, c) ∈ p) : lookupKey p i = some c := by
  induction p with
  | nil => simp at h
  | cons e rest ih =>
    rw [List.map_cons, List.nodup_cons] at hnd
    rcases List.mem_cons.mp h with he | hr
    · have h1 : e.1 = i := by rw [← he]
      have h2 : e.2 = c := by rw [← he]
      rw [lookupKey, if_pos h1, h2]
    · rw [lookupKey]
      have hne : ¬(e.1 = i) := by
        intro heq
        apply hnd.1
        rw [heq]
        exact List.mem_map_of_mem Prod.fst hr
      simp only [if_neg hne]
      exact ih hnd.2 hr

theorem removeKey_eq_filter (p : List (Int × Nat)) (i : Int) :
    removeKey p i = p.filter (fun e => decide (e.1 ≠ i)) := by
  induction p with
  | nil => rfl
  | cons e rest ih =>
    rw [removeKey, List.filter_cons]
    by_cases he : e.1 = i <;> simp [he, ih]

theorem removeKey_sublist (p : List (Int × Nat)) (i : Int) :
    List.Sublist (removeKey p i) p := by
  rw [removeKey_eq_filter]
  exact List.filter_sublist p

theorem lookupKey_removeKey_self (p : List (Int × Nat)) (i : Int) :
    lookupKey (removeKey p i) i = none := by
  cases h : lookupKey (removeKey p i) i with
  | none => rfl
  | some c =>
    have hm := lookupKey_eq_some h
    rw [removeKey_eq_filter, List.mem_filter] at hm
    simp at hm

theorem snd_nodup_inj {p : List (Int × Nat)} (hnd : (p.map Prod.snd).Nodup)
    {i j : Int} {c : Nat} (hi : (i, c) ∈ p) (hj : (j, c) ∈ p) : i = j := by
  induction p with
  | nil => simp at hi
  | cons e rest ih =>
    rw [List.map_cons, List.nodup_cons] at hnd
    rcases List.mem_cons.mp hi with hei | hri <;> rcases List.mem_cons.mp hj with hej | hrj
    · have : (i, c) = (j, c) := hei.trans hej.symm
      simpa using this
    · exfalso
      apply hnd.1
      have : e.2 = c := by rw [← hei]
      rw [this]
      exact List.mem_map_of_mem Prod.snd hrj
    · exfalso
      apply hnd.1
      have : e.2 = c := by rw [← hej]
      rw [this]
      exact List.mem_map_of_mem Prod.snd hri
    · exact ih hnd.2 hri hrj

theorem processMessage_spec (st : ReadState) (m : CDPMessage) :
    ((processMessage st m).1.pending = st.pending ∧ (processMessage st m).2 = none) ∨
    (∃ c, lookupKey st.pending m.id = some c ∧ m.id ≠ 0 ∧
      (processMessage st m).1.pending = removeKey st.pending m.id ∧
      (processMessage st m).2 = some (c, m)) := by
  unfold processMessage
  split
  · next h0 =>
    split
    · next c hl => right; exact ⟨c, hl, h0, rfl, rfl⟩
    · left; exact ⟨rfl, rfl⟩
  · split
    · split
      · split
        · left; exact ⟨rfl, rfl⟩
        · left; exact ⟨rfl, rfl⟩
      · left; exact ⟨rfl, rfl⟩
    · left; exact ⟨rfl, rfl⟩

theorem runReader_delivery_mem (msgs : List CDPMessage) :
    ∀ (st : ReadState) (c : Nat) (m : CDPMessage),
    (c, m) ∈ (runReader st msgs).2 → (m.id, c) ∈ st.pending := by
  induction msgs with
  | nil => intro st c m h; simp [runReader] at h
  | cons m0 rest ih =>
    intro st c m h
    simp only [runReader] at h
    rcases processMessage_spec st m0 with ⟨hp, hd⟩ | ⟨c0, hl, h0, hp, hd⟩
    · simp only [hd] at h
      have := ih _ _ _ h
      rwa [hp] at this
    · simp only [hd] at h
      rcases List.mem_cons.mp h with hh | ht
      · obtain ⟨rfl, rfl⟩ : c = c0 ∧ m = m0 := by simpa using hh
        exact lookupKey_eq_some hl
      · have hmem := ih _ _ _ ht
        rw [hp, removeKey_eq_filter, List.mem_filter] at hmem
        exact hmem.1

theorem runReader_callers_nodup (msgs : List CDPMessage) : ∀ st : ReadState,
    (st.pending.map Prod.snd).Nodup → ((runReader st msgs).2.map Prod.fst).Nodup := by
  induction msgs with
  | nil => intro st _; simp [runReader]
  | cons m0 rest ih =>
    intro st h
    simp only [runReader]
    rcases processMessage_spec st m0 with ⟨hp, hd⟩ | ⟨c0, hl, h0, hp, hd⟩
    · simp only [hd]
      apply ih
      rw [hp]
      exact h
    · simp only [hd, List.map_cons, List.nodup_cons]
      constructor
      · intro hc0
        obtain ⟨x, hmem, hfst⟩ := List.mem_map.mp hc0
        have hx : (x.1, x.2) ∈ (runReader (processMessage st m0).1 rest).2 := by
          rw [Prod.mk.eta]
          exact hmem
        have h1 := runReader_delivery_mem rest _ _ _ hx
        rw [hp, removeKey_eq_filter, List.mem_filter] at h1
        have h2 : (x.2.id, x.1) ∈ st.pending := h1.1
        have h4 : (m0.id, x.1) ∈ st.pending := by
          rw [hfst]
          exact lookupKey_eq_some hl
        have h5 := snd_nodup_inj h h2 h4
        have h6 := h1.2
        simp only [decide_eq_true_eq] at h6
        exact h6 h5
      · apply ih
        rw [hp]
        exact List.Nodup.sublist (List.Sublist.map Prod.snd (removeKey_sublist _ _)) h

theorem runReader_delivers (msgs : List CDPMessage) : ∀ (st : ReadState) (i : Int) (c : Nat),
    (st.pending.map Prod.fst).Nodup → i ≠ 0 → (i, c) ∈ st.pending →
    (∃ m ∈ msgs, m.id = i) →
    ∃ m, (c, m) ∈ (runReader st msgs).2 ∧ m.id = i := by
  induction msgs with
  | nil => intro st i c _ _ _ hex; simp at hex
  | cons m0 rest ih =>
    intro st i c hnd h0 hmem hex
    simp only [runReader]
    by_cases hm0 : m0.id = i
    · have hl : lookupKey st.pending m0.id = some c := by
        rw [hm0]
        exact lookupKey_of_mem_nodup hnd hmem
      have hid0 : m0.id ≠ 0 := by rw [hm0]; exact h0
      have hstep : (processMessage st m0).2 = some (c, m0) := by
        rw [processMessage]
        simp [hid0, hl]
      simp only [hstep]
      exact ⟨m0, List.mem_cons_self _ _, hm0⟩
    · have hexr : ∃ m ∈ rest, m.id = i := by
        obtain ⟨m, hm, hmi⟩ := hex
        rcases List.mem_cons.mp hm with rfl | hmr
        · exact absurd hmi hm0
        · exact ⟨m, hmr, hmi⟩
      rcases processMessage_spec st m0 with ⟨hp, hd⟩ | ⟨c0, hl, hh0, hp, hd⟩
      · simp only [hd]
        apply ih _ i c (by rw [hp]; exact hnd) h0 (by rw [hp]; exact hmem) hexr
      · simp only [hd]
        have hnd1 : ((processMessage st m0).1.pending.map Prod.fst).Nodup := by
          rw [hp]
          exact List.Nodup.sublist (List.Sublist.map Prod.fst (removeKey_sublist _ _)) hnd
        have hmem1 : (i, c) ∈ (processMessage st m0).1.pending := by
          rw [hp, removeKey_eq_filter, List.mem_filter]
          refine ⟨hmem, ?_⟩
          simp only [decide_eq_true_eq]
          exact fun hcon => hm0 hcon.symm
        obtain ⟨m1, hm1, hmi1⟩ := ih _ i c hnd1 h0 hmem1 hexr
        exact ⟨m1, List.mem_cons_of_mem _ hm1, hmi1⟩

theorem foldl_enqueue_take (ms : List CDPMessage) : ∀ q : List CDPMessage,
    ms.foldl enqueueEvent q = q ++ ms.take (eventCapacity - q.length) := by
  induction ms with
  | nil => intro q; simp
  | cons m rest ih =>
    intro q
    rw [List.foldl_cons]
    by_cases h : q.length < eventCapacity
    · have h1 : enqueueEvent q m = q ++ [m] := by simp [enqueueEvent, h]
      rw [h1, ih]
      have hk : eventCapacity - q.length = (eventCapacity - (q ++ [m]).length) + 1 := by
        simp only [List.length_append, List.length_cons, List.length_nil]
        omega
      rw [hk, List.take_succ_cons, List.append_assoc]
      rfl
    · have h1 : enqueueEvent q m = q := by simp [enqueueEvent, h]
      have h0 : eventCapacity - q.length = 0 := by omega
      rw [h1, ih, h0]
      simp

theorem runReader_all_events (msgs : List CDPMessage) :
    ∀ (st : ReadState) (q : List CDPMessage),
    st.closed = false → st.events = some q → (∀ m ∈ msgs, m.id = 0 ∧ m.method ≠ "") →
    (runReader st msgs).1 = { st with events := some (msgs.foldl enqueueEvent q) } ∧
    (runReader st msgs).2 = [] := by
  induction msgs with
  | nil =>
    intro st q _ he _
    refine ⟨?_, rfl⟩
    simp only [runReader, List.foldl_nil, ← he]
  | cons m rest ih =>
    intro st q hc he hall
    obtain ⟨hm0, hmm⟩ := hall m (List.mem_cons_self m rest)
    have hstep : processMessage st m = ({ st with events := some (enqueueEvent q m) }, none) := by
      rw [processMessage]
      simp [hm0, hmm, he, hc]
    simp only [runReader, hstep]
    have hrec := ih { st with events := some (enqueueEvent q m) } (enqueueEvent q m)
      (by simpa using hc) rfl (fun x hx => hall x (List.mem_cons_of_mem _ hx))
    refine ⟨?_, hrec.2⟩
    rw [hrec.1]
    rfl

theorem allocIds_eq (n : Nat) : ∀ cur : Int,
    allocIds n cur = (List.range n).map (fun k : Nat => cur + 1 + (k : Int)) := by
  induction n with
  | zero => intro cur; rfl
  | succ k ih =>
    intro cur
    rw [allocIds, List.range_succ_eq_map, List.map_cons, List.map_map]
    simp only [allocId]
    rw [ih]
    congr 1
    · simp
    · have hfun : ((fun j : Nat => cur + 1 + (j : Int)) ∘ Nat.succ) =
          fun j : Nat => cur + 1 + 1 + (j : Int) := by
        funext j
        simp only [Function.comp]
        push_cast
        ring
      rw [hfun]

theorem probePorts_first_free (occupied : Nat → Bool) : ∀ (n : Nat) (port k : Nat),
    k < n → occupied (port + k) = false → (∀ j, j < k → occupied (port + j) = true) →
    probePorts occupied n port = port + k := by
  intro n
  induction n with
  | zero => intro port k hk; omega
  | succ nn ih =>
    intro port k hk hfree hocc
    cases hk0 : k with
    | zero =>
      subst hk0
      simp only [Nat.add_zero] at hfree
      rw [probePorts, hfree]
      simp
    | succ kk =>
      subst hk0
      have hp : occupied port = true := by
        have h00 := hocc 0 (Nat.succ_pos kk)
        simpa using h00
      have hred : probePorts occupied (nn + 1) port = probePorts occupied nn (port + 1) := by
        rw [probePorts, hp]
        simp
      have hfree2 : occupied (port + 1 + kk) = false := by
        have harith : port + 1 + kk = port + (kk + 1) := by omega
        rw [harith]
        exact hfree
      have hocc2 : ∀ j, j < kk → occupied (port + 1 + j) = true := by
        intro j hj
        have harith : port + 1 + j = port + (j + 1) := by omega
        rw [harith]
        exact hocc (j + 1) (by omega)
      have hih := ih (port + 1) kk (by omega) hfree2 hocc2
      rw [hred, hih]
      omega

/-- Claim C1: on one open connection, for any interleaving of replies the
reader delivers to each caller only the response whose id equals the id that
caller registered (no misrouting), at most one response per caller, and it
does deliver the matching response when one arrives — provided the pending
table maps distinct ids to distinct callers, which unique id allocation
guarantees. -/
theorem C1_response_correlation (st : ReadState) (msgs : List CDPMessage)
    (hkeys : (st.pending.map Prod.fst).Nodup)
    (hcallers : (st.pending.map Prod.snd).Nodup) :
    (∀ c m i, (c, m) ∈ (runReader st msgs).2 → (i, c) ∈ st.pending → m.id = i) ∧
    ((runReader st msgs).2.map Prod.fst).Nodup ∧
    (∀ i c, i ≠ 0 → (i, c) ∈ st.pending → (∃ m ∈ msgs, m.id = i) →
      ∃ m, (c, m) ∈ (runReader st msgs).2 ∧ m.id = i) := by
  refine ⟨?_, runReader_callers_nodup msgs st hcallers, ?_⟩
  · intro c m i hdel hreg
    have h1 := runReader_delivery_mem msgs st c m hdel
    exact snd_nodup_inj hcallers h1 hreg
  · intro i c h0 hreg hex
    exact runReader_delivers msgs st i c hkeys h0 hreg hex

theorem C1_response_correlation_witness :
    (([(2, 10), (3, 11)] : List (Int × Nat)).map Prod.fst).Nodup ∧
    (([(2, 10), (3, 11)] : List (Int × Nat)).map Prod.snd).Nodup ∧
    ∃ m, (10, m) ∈ (runReader ⟨[(2, 10), (3, 11)], none, false⟩
      [sampleResp 3, sampleResp 2]).2 ∧ m.id = 2 := by
  refine ⟨by decide, by decide, ?_⟩
  exact (C1_response_correlation ⟨[(2, 10), (3, 11)], none, false⟩
    [sampleResp 3, sampleResp 2] (by decide) (by decide)).2.2 2 10
    (by decide) (by decide) ⟨sampleResp 2, by decide, rfl⟩

/-- Claim C2: with the capacity-100 event queue and no consumer, 150
arriving events leave exactly the first 100 in the queue in arrival order
and the remaining 50 are dropped; the enqueue is a total non-blocking step
(a full queue drops the event) and the reader makes no response deliveries
on the way. -/
theorem C2_event_queue_drop (msgs : List CDPMessage)
    (hlen : msgs.length = 150)
    (hev : ∀ m ∈ msgs, m.id = 0 ∧ m.method ≠ "") :
    (runReader ⟨[], some [], false⟩ msgs).1.events = some (msgs.take 100) ∧
    (msgs.take 100).length = 100 ∧
    msgs.length - 100 = 50 ∧
    (runReader ⟨[], some [], false⟩ msgs).2 = [] := by
  have h := runReader_all_events msgs ⟨[], some [], false⟩ [] rfl rfl hev
  refine ⟨?_, ?_, by omega, h.2⟩
  · rw [h.1]
    show some (msgs.foldl enqueueEvent []) = some (msgs.take 100)
    rw [foldl_enqueue_take]
    simp [eventCapacity]
  · rw [List.length_take, hlen]
    omega

theorem C2_event_queue_drop_witness :
    (List.replicate 150 sampleEvent).length = 150 ∧
    (runReader ⟨[], some [], false⟩ (List.replicate 150 sampleEvent)).1.events =
      some ((List.replicate 150 sampleEvent).take 100) := by
  have hev : ∀ m ∈ List.replicate 150 sampleEvent, m.id = 0 ∧ m.method ≠ "" := by
    intro m hm
    rw [List.eq_of_mem_replicate hm]
    exact ⟨rfl, by decide⟩
  exact ⟨by simp, (C2_event_queue_drop (List.replicate 150 sampleEvent) (by simp) hev).1⟩

/-- Claim C3: a Send whose context completes before any delivery deregisters
its pending slot and returns the context error, and a response carrying that
id that arrives afterward finds no pending slot: the reader drops it with no
delivery and no state change. -/
theorem C3_cancel_then_drop (pending : List (Int × Nat)) (id : Int)
    (ev : Option (List CDPMessage)) (resp : CDPMessage)
    (hid : id ≠ 0) (hresp : resp.id = id) :
    (sendAwait pending id .ctxDone).2 = .error .ctxCancelled ∧
    lookupKey (sendAwait pending id .ctxDone).1 id = none ∧
    processMessage ⟨(sendAwait pending id .ctxDone).1, ev, false⟩ resp =
      (⟨(sendAwait pending id .ctxDone).1, ev, false⟩, none) := by
  have hs : (sendAwait pending id .ctxDone).1 = removeKey pending id := rfl
  refine ⟨rfl, ?_, ?_⟩
  · rw [hs]
    exact lookupKey_removeKey_self pending id
  · rw [hs, processMessage]
    have h1 : resp.id ≠ 0 := by rw [hresp]; exact hid
    rw [if_pos h1, hresp, lookupKey_removeKey_self]

theorem C3_cancel_then_drop_witness :
    (2 : Int) ≠ 0 ∧ (sampleResp 2).id = 2 ∧
    (sendAwait [(2, 10)] 2 .ctxDone).2 = .error .ctxCancelled := by
  refine ⟨by decide, rfl, ?_⟩
  exact (C3_cancel_then_drop [(2, 10)] 2 none (sampleResp 2) (by decide) rfl).1

/-- Claim C4 as stated is false at the code: the NextID counter does start
at 1, but the atomic increment returns the new value, so the id attached to
the first request sent on a fresh connection is 2, not 1. -/
theorem C4_counterexample :
    initialNextId = 1 ∧ (allocId initialNextId).2 = 2 ∧
    ¬(allocId initialNextId).2 = 1 := by
  decide

/-- Claim C4 amended: the counter starts at 1 and each allocation is an
atomic increment returning the new value, so over the connection's lifetime
the allocated ids are 2, 3, 4, ...: strictly increasing, hence unique even
under concurrent (linearized atomic) allocation, and the first request
carries id 2 rather than 1. -/
theorem C4_id_allocation (n : Nat) :
    allocIds n initialNextId = (List.range n).map (fun k : Nat => 2 + (k : Int)) ∧
    (allocIds n initialNextId).Pairwise (· < ·) ∧
    (allocIds n initialNextId).Nodup ∧
    (0 < n → (allocIds n initialNextId).head? = some 2) := by
  have hfn : (fun k : Nat => initialNextId + 1 + (k : Int)) =
      (fun k : Nat => 2 + (k : Int)) := by
    funext k
    norm_num [initialNextId]
  have he : allocIds n initialNextId = (List.range n).map (fun k : Nat => 2 + (k : Int)) := by
    rw [allocIds_eq, hfn]
  have hpw : (allocIds n initialNextId).Pairwise (· < ·) := by
    rw [he]
    refine List.Pairwise.map _ ?_ (List.pairwise_lt_range n)
    intro a b hab
    omega
  refine ⟨he, hpw, List.Pairwise.imp (fun h => ne_of_lt h) hpw, ?_⟩
  intro hn
  rw [he]
  cases n with
  | zero => omega
  | succ k =>
    rw [List.range_succ_eq_map]
    simp

theorem C4_id_allocation_witness :
    0 < 3 ∧ (allocIds 3 initialNextId).head? = some 2 :=
  ⟨by decide, (C4_id_allocation 3).2.2.2 (by decide)⟩

theorem stopInstance_trace (env : StopEnv) (hload : env.loadOk = true) :
    (stopInstance env).2 = (gracefulPhase env).2 ++ signalPhase env (gracefulPhase env).1 ++
      cleanupPhase env ++ [StopAction.removeRecord] ∧
    (stopInstance env).1 = none := by
  rw [stopInstance, if_neg (by simp [hload])]
  exact ⟨rfl, rfl⟩

theorem gracefulPhase_actions (env : StopEnv) :
    ∀ a ∈ (gracefulPhase env).2, a = StopAction.dialAttempt ∨ a = StopAction.sendClose := by
  intro a ha
  rw [gracefulPhase] at ha
  split at ha
  · split at ha
    · simp at ha
      tauto
    · simp at ha
      tauto
  · simp at ha

theorem cleanupPhase_actions (env : StopEnv) :
    ∀ a ∈ cleanupPhase env, a = StopAction.removeDir env.userDataDir := by
  intro a ha
  rw [cleanupPhase] at ha
  split at ha
  · simpa using ha
  · simp at ha

theorem signalPhase_eq (env : StopEnv) (b : Bool) :
    signalPhase env b = [] ∨
    signalPhase env b = [StopAction.signalProcess Sig.term env.pid] ∨
    signalPhase env b = [StopAction.signalProcess Sig.term env.pid,
      StopAction.signalProcess Sig.kill env.pid] := by
  rw [signalPhase]
  split
  · split
    · split
      · right; left; rfl
      · right; right; rfl
    · left; rfl
  · left; rfl

theorem stop_kill_mem (env : StopEnv) (p : Int)
    (h : StopAction.signalProcess Sig.kill p ∈ (stopInstance env).2) :
    p = env.pid ∧ signalPhase env (gracefulPhase env).1 =
      [StopAction.signalProcess Sig.term env.pid,
       StopAction.signalProcess Sig.kill env.pid] := by
  cases hb : env.loadOk with
  | false =>
    rw [stopInstance, if_pos hb] at h
    simp at h
  | true =>
    rw [(stopInstance_trace env hb).1] at h
    simp only [List.mem_append, List.mem_singleton] at h
    rcases h with ((h | h) | h) | h
    · rcases gracefulPhase_actions env _ h with h1 | h1 <;> simp at h1
    · rcases signalPhase_eq env (gracefulPhase env).1 with hsp | hsp | hsp <;> rw [hsp] at h
      · simp at h
      · simp at h
      · simp only [List.mem_cons, List.not_mem_nil, or_false] at h
        rcases h with h | h
        · simp at h
        · simp only [StopAction.signalProcess.injEq] at h
          exact ⟨h.2, hsp⟩
    · have h1 := cleanupPhase_actions env _ h
      simp at h1
    · simp at h

/-- Claim C5 as stated is false at the code: in the scenario where the
graceful close is accepted but the process does not exit within the window,
the terminate signal is delivered to the single browser process via the
os.Process handle, never to the process group — the concrete trace contains
signalProcess term and no signalGroup action at all. -/
theorem C5_counterexample :
    (stopInstance envStopEscalate).2 =
      [StopAction.dialAttempt, StopAction.sendClose,
       StopAction.signalProcess Sig.term 42, StopAction.signalProcess Sig.kill 42,
       StopAction.removeRecord] ∧
    StopAction.signalProcess Sig.term 42 ∈ (stopInstance envStopEscalate).2 ∧
    StopAction.signalGroup Sig.term 42 ∉ (stopInstance envStopEscalate).2 ∧
    StopAction.signalGroup Sig.kill 42 ∉ (stopInstance envStopEscalate).2 := by
  decide

/-- Claim C5 amended: Stop's escalation is ordered, but the terminate and
kill signals go to the single browser process (not the process group): when
the record loads, the stop always succeeds (no stage's failure aborts it);
whenever a kill appears in the trace, a terminate to the same process
precedes it; and in the accepted-but-not-exited scenario a terminate is
sent, followed by a kill exactly when the bounded terminate wait also times
out. -/
theorem C5_stop_escalation (env : StopEnv) (hload : env.loadOk = true) :
    (stopInstance env).1 = none ∧
    (∀ p, StopAction.signalProcess Sig.kill p ∈ (stopInstance env).2 →
      ∃ l r, (stopInstance env).2 = l ++ StopAction.signalProcess Sig.term p :: r ∧
        StopAction.signalProcess Sig.kill p ∈ r) ∧
    (env.wsUrl ≠ "" → env.dialOk = true → env.closeAccepted = true →
      env.findProcOk = true → env.exitedInGraceWindow = false →
      env.aliveAfterGrace = true → env.findProcOk2 = true →
      StopAction.signalProcess Sig.term env.pid ∈ (stopInstance env).2 ∧
      (StopAction.signalProcess Sig.kill env.pid ∈ (stopInstance env).2 ↔
        env.exitedInTermWindow = false)) := by
  have htr := (stopInstance_trace env hload).1
  refine ⟨(stopInstance_trace env hload).2, ?_, ?_⟩
  · intro p h
    obtain ⟨rfl, hsp⟩ := stop_kill_mem env p h
    refine ⟨(gracefulPhase env).2,
      StopAction.signalProcess Sig.kill env.pid ::
        (cleanupPhase env ++ [StopAction.removeRecord]), ?_, ?_⟩
    · rw [htr, hsp]
      simp [List.append_assoc]
    · simp
  · intro hws hdial hacc hfp hexg halive hfp2
    have hg1 : (gracefulPhase env).1 = false := by
      rw [gracefulPhase, if_pos hws, if_pos hdial]
      simp [hacc, hfp, hexg]
    cases hew : env.exitedInTermWindow with
    | false =>
      have hsp : signalPhase env (gracefulPhase env).1 =
          [StopAction.signalProcess Sig.term env.pid,
           StopAction.signalProcess Sig.kill env.pid] := by
        rw [hg1, signalPhase, if_pos ⟨rfl, halive⟩, if_pos hfp2, if_neg (by simp [hew])]
      refine ⟨?_, ?_⟩
      · rw [htr, hsp]
        simp
      · constructor
        · intro _
          rfl
        · intro _
          rw [htr, hsp]
          simp
    | true =>
      have hsp : signalPhase env (gracefulPhase env).1 =
          [StopAction.signalProcess Sig.term env.pid] := by
        rw [hg1, signalPhase, if_pos ⟨rfl, halive⟩, if_pos hfp2, if_pos hew]
      refine ⟨?_, ?_⟩
      · rw [htr, hsp]
        simp
      · constructor
        · intro h
          have hk := (stop_kill_mem env env.pid h).2
          rw [hsp] at hk
          simp at hk
        · intro h
          simp at h

theorem C5_stop_escalation_witness :
    envStopEscalate.loadOk = true ∧ (stopInstance envStopEscalate).1 = none :=
  ⟨rfl, (C5_stop_escalation envStopEscalate rfl).1⟩

/-- Claim C10: StopInstance fails exactly when the registry record cannot be
loaded; on every other path it removes the registry record (best-effort) and
returns success. -/
theorem C10_stop_error_iff (env : StopEnv) :
    ((stopInstance env).1.isSome ↔ env.loadOk = false) ∧
    (env.loadOk = true →
      StopAction.removeRecord ∈ (stopInstance env).2 ∧ (stopInstance env).1 = none) := by
  cases hb : env.loadOk with
  | false =>
    rw [stopInstance, if_pos hb]
    simp
  | true =>
    have h := stopInstance_trace env hb
    refine ⟨?_, fun _ => ⟨?_, h.2⟩⟩
    · rw [h.2]
      simp [hb]
    · rw [h.1]
      simp

theorem C10_stop_error_iff_witness :
    envStopNoRecord.loadOk = false ∧
    (stopInstance envStopNoRecord).1.isSome = true ∧
    StopAction.removeRecord ∈ (stopInstance envStopEscalate).2 := by
  refine ⟨rfl, ?_, ?_⟩
  · exact ((C10_stop_error_iff envStopNoRecord).1).mpr rfl
  · exact ((C10_stop_error_iff envStopEscalate).2 rfl).1

theorem startBrowser_caller_dir (callerDir : String) (env : StartEnv)
    (hc : callerDir ≠ "") :
    (startBrowser callerDir env).2 = [] ∨
    (startBrowser callerDir env).2 = [StartAction.launch] ∨
    (startBrowser callerDir env).2 = [StartAction.launch, StartAction.killProc] ∨
    (startBrowser callerDir env).2 = [StartAction.launch, StartAction.saveRecord] := by
  rw [startBrowser]
  split
  · left; rfl
  · split
    · left; rfl
    · rw [if_neg (by simp [hc])]
      simp only [if_neg hc, decide_eq_true_eq]
      split
      · right; left
        simp [hc]
      · split
        · right; right; left
          simp [hc]
        · split
          · right; right; left
            simp [hc]
          · split
            · right; right; left
              simp [hc]
            · right; right; right
              simp [hc]

/-- Claim C6 as stated is false at the code: Stop gates deletion on a
temp-root prefix check over the recorded path, not on whether the system
auto-created the directory. A caller-supplied working directory
/tmp/myprofile is accepted by Start (which itself never removes it and
records it in the instance), yet Stop removes it because it lies under the
OS temp root. -/
theorem C6_counterexample :
    (startBrowser "/tmp/myprofile" envStartOk).1 = some "/tmp/myprofile" ∧
    (startBrowser "/tmp/myprofile" envStartOk).2 =
      [StartAction.launch, StartAction.saveRecord] ∧
    envStopCallerTmp.userDataDir = "/tmp/myprofile" ∧
    StopAction.removeDir "/tmp/myprofile" ∈ (stopInstance envStopCallerTmp).2 := by
  decide

/-- Claim C6 amended: no Start failure path removes a caller-supplied
directory (only the auto-created temp directory is ever removed there), and
Stop removes the recorded directory exactly when it is non-empty and the OS
temp root is a prefix of it — so an auto-created directory is removed, but
so is a caller-supplied directory that happens to live under the temp
root. -/
theorem C6_dir_removal (callerDir : String) (env : StartEnv) (senv : StopEnv)
    (hc : callerDir ≠ "") (hload : senv.loadOk = true) :
    (∀ d, StartAction.removeDir d ∉ (startBrowser callerDir env).2) ∧
    (∀ d, StopAction.removeDir d ∈ (stopInstance senv).2 ↔
      (d = senv.userDataDir ∧ senv.userDataDir ≠ "" ∧
       senv.tempRoot.data <+: senv.userDataDir.data)) := by
  constructor
  · intro d
    rcases startBrowser_caller_dir callerDir env hc with h | h | h | h <;> rw [h] <;> simp
  · intro d
    rw [(stopInstance_trace senv hload).1]
    simp only [List.mem_append, List.mem_singleton]
    constructor
    · rintro (((h | h) | h) | h)
      · rcases gracefulPhase_actions senv _ h with h1 | h1 <;> simp at h1
      · rcases signalPhase_eq senv (gracefulPhase senv).1 with hsp | hsp | hsp <;>
          rw [hsp] at h <;> simp at h
      · rw [cleanupPhase] at h
        split at h
        · next hcond =>
          simp only [List.mem_singleton, StopAction.removeDir.injEq] at h
          exact ⟨h, hcond.1, hcond.2⟩
        · simp at h
      · simp at h
    · rintro ⟨rfl, hne, hpre⟩
      left; right
      rw [cleanupPhase, if_pos ⟨hne, hpre⟩]
      simp

theorem C6_dir_removal_witness :
    "/data/profile" ≠ "" ∧ envStopCallerTmp.loadOk = true ∧
    (StopAction.removeDir "/tmp/myprofile" ∈ (stopInstance envStopCallerTmp).2 ↔
      ("/tmp/myprofile" = envStopCallerTmp.userDataDir ∧
       envStopCallerTmp.userDataDir ≠ "" ∧
       envStopCallerTmp.tempRoot.data <+: envStopCallerTmp.userDataDir.data)) :=
  ⟨by decide, rfl,
    (C6_dir_removal "/data/profile" envStartOk envStopCallerTmp (by decide) rfl).2
      "/tmp/myprofile"⟩

/-- Claim C7: the one-shot dispatcher attaches first exactly when the target
is non-empty and not the "browser" sentinel, issues exactly one command with
the obtained session id (empty if browser-level), returns a transported
response as a success even when it carries a protocol-level error object,
fails only on transport or attach failures, and the connection close is the
last action on every path after a successful dial. -/
theorem C7_dispatcher (target : String) (env : DispatchEnv) (hd : env.dialOk = true) :
    ((target = "" ∨ target = "browser") →
      (dispatchSend target env).2 = [.dial, .command "", .closeConn] ∧
      ∀ resp, env.cmdResp = some resp → (dispatchSend target env).1 = .ok resp) ∧
    (target ≠ "" → target ≠ "browser" →
      (∀ sid, attachToTarget env.attach = .ok sid →
        (dispatchSend target env).2 = [.dial, .attach target, .command sid, .closeConn] ∧
        ∀ resp, env.cmdResp = some resp → (dispatchSend target env).1 = .ok resp) ∧
      (∀ e, attachToTarget env.attach = .error e →
        (dispatchSend target env).2 = [.dial, .attach target, .closeConn] ∧
        (dispatchSend target env).1 = .error ("attaching to target: " ++ e))) ∧
    (dispatchSend target env).2.getLast? = some .closeConn ∧
    (∀ resp, (dispatchSend target env).1 = .ok resp → env.cmdResp = some resp ∧
      ((dispatchSend target env).2.filter isCommand).length = 1) ∧
    (∀ s, (dispatchSend target env).1 = .error s →
      env.cmdResp = none ∨ ∃ e, attachToTarget env.attach = .error e) := by
  rw [dispatchSend, if_neg (by simp [hd])]
  by_cases ht : target ≠ "" ∧ target ≠ "browser"
  · rw [if_pos ht]
    cases ha : attachToTarget env.attach with
    | error e =>
      refine ⟨?_, ?_, ?_, ?_, ?_⟩
      · intro h
        rcases h with h | h
        · exact absurd h ht.1
        · exact absurd h ht.2
      · intro h1 h2
        constructor
        · intro sid hsid
          exact Except.noConfusion hsid
        · intro e0 he0
          obtain rfl : e = e0 := Except.error.inj he0
          exact ⟨rfl, rfl⟩
      · rfl
      · intro resp hr
        exact Except.noConfusion hr
      · intro s _
        exact Or.inr ⟨e, rfl⟩
    | ok sid =>
      cases hc : env.cmdResp with
      | none =>
        refine ⟨?_, ?_, ?_, ?_, ?_⟩
        · intro h
          rcases h with h | h
          · exact absurd h ht.1
          · exact absurd h ht.2
        · intro h1 h2
          constructor
          · intro sid0 hsid
            obtain rfl : sid = sid0 := Except.ok.inj hsid
            refine ⟨rfl, ?_⟩
            intro resp hr
            exact Option.noConfusion hr
          · intro e0 he0
            exact Except.noConfusion he0
        · rfl
        · intro resp hr
          exact Except.noConfusion hr
        · intro s _
          exact Or.inl rfl
      | some resp0 =>
        refine ⟨?_, ?_, ?_, ?_, ?_⟩
        · intro h
          rcases h with h | h
          · exact absurd h ht.1
          · exact absurd h ht.2
        · intro h1 h2
          constructor
          · intro sid0 hsid
            obtain rfl : sid = sid0 := Except.ok.inj hsid
            refine ⟨rfl, ?_⟩
            intro resp hr
            obtain rfl : resp0 = resp := Option.some.inj hr
            rfl
          · intro e0 he0
            exact Except.noConfusion he0
        · rfl
        · intro resp hr
          obtain rfl : resp0 = resp := Except.ok.inj hr
          refine ⟨rfl, ?_⟩
          simp [isCommand]
        · intro s hs
          exact Except.noConfusion hs
  · rw [if_neg ht]
    have hbrowser : target = "" ∨ target = "browser" := by
      by_cases h1 : target = ""
      · exact Or.inl h1
      · by_cases h2 : target = "browser"
        · exact Or.inr h2
        · exact absurd ⟨h1, h2⟩ ht
    cases hc : env.cmdResp with
    | none =>
      refine ⟨?_, ?_, ?_, ?_, ?_⟩
      · intro _
        refine ⟨rfl, ?_⟩
        intro resp hr
        exact Option.noConfusion hr
      · intro h1 h2
        exact absurd ⟨h1, h2⟩ ht
      · rfl
      · intro resp hr
        exact Except.noConfusion hr
      · intro s _
        exact Or.inl rfl
    | some resp0 =>
      refine ⟨?_, ?_, ?_, ?_, ?_⟩
      · intro _
        refine ⟨rfl, ?_⟩
        intro resp hr
        obtain rfl : resp0 = resp := Option.some.inj hr
        rfl
      · intro h1 h2
        exact absurd ⟨h1, h2⟩ ht
      · rfl
      · intro resp hr
        obtain rfl : resp0 = resp := Except.ok.inj hr
        refine ⟨rfl, ?_⟩
        simp [isCommand]
      · intro s hs
        exact Except.noConfusion hs

theorem C7_dispatcher_witness :
    envDispProtoErr.dialOk = true ∧
    (∃ resp, envDispProtoErr.cmdResp = some resp ∧ resp.error.isSome = true) ∧
    (dispatchSend "browser" envDispProtoErr).2 =
      [DispAction.dial, DispAction.command "", DispAction.closeConn] := by
  refine ⟨rfl, ⟨_, rfl, rfl⟩, ?_⟩
  exact ((C7_dispatcher "browser" envDispProtoErr rfl).1 (Or.inr rfl)).1

/-- Claim C8: a caller-supplied non-zero port is used as-is without probing;
with an unspecified port the probe walks sequential ports from the default
9222 (bounded to 100 attempts) and selects the first port not already
answering the debugging-status endpoint. -/
theorem C8_port_choice (optPort : Nat) (occupied : Nat → Bool) :
    (optPort ≠ 0 → choosePort optPort occupied = optPort) ∧
    (optPort = 0 → ∀ k, k < 100 → occupied (defaultPort + k) = false →
      (∀ j, j < k → occupied (defaultPort + j) = true) →
      choosePort optPort occupied = defaultPort + k) := by
  constructor
  · intro h
    rw [choosePort, if_pos h]
  · intro h0 k hk hfree hocc
    rw [choosePort, if_neg (by simp [h0])]
    exact probePorts_first_free occupied 100 defaultPort k hk hfree hocc

theorem C8_port_choice_witness :
    occTwo 9222 = true ∧ occTwo 9223 = true ∧ occTwo (defaultPort + 2) = false ∧
    choosePort 0 occTwo = 9224 ∧ choosePort 7777 occTwo = 7777 := by
  have hocc : ∀ j, j < 2 → occTwo (defaultPort + j) = true := by
    intro j hj
    interval_cases j <;> decide
  have h := (C8_port_choice 0 occTwo).2 rfl 2 (by decide) (by decide) hocc
  refine ⟨by decide, by decide, by decide, ?_, (C8_port_choice 7777 occTwo).1 (by decide)⟩
  rw [h]
  decide

/-- Claim C9: the event listener has no browser-level sentinel — it attaches
for every non-empty target, including the literal "browser", whereas the
command dispatcher skips attaching for "browser". -/
theorem C9_listener_attach (target domain : String) (lenv : ListenEnv)
    (denv : DispatchEnv) (hl : lenv.dialOk = true) (hd : denv.dialOk = true)
    (ht : target ≠ "") :
    ListenAction.attach target ∈ (listenSetup target domain lenv).2 ∧
    DispAction.attach "browser" ∉ (dispatchSend "browser" denv).2 := by
  constructor
  · rw [listenSetup, if_neg (by simp [hl]), if_pos ht]
    cases ha : attachToTarget lenv.attach with
    | error e => simp
    | ok sid =>
      cases hc : lenv.enableResp with
      | none => simp
      | some resp =>
        cases hr : resp.error with
        | none => simp [hr]
        | some e => simp [hr]
  · rw [dispatchSend, if_neg (by simp [hd]), if_neg (by simp)]
    cases hc : denv.cmdResp with
    | none => simp
    | some resp => simp

theorem C9_listener_attach_witness :
    envListenOk.dialOk = true ∧ envDispProtoErr.dialOk = true ∧
    ("browser" : String) ≠ "" ∧
    ListenAction.attach "browser" ∈ (listenSetup "browser" "Page" envListenOk).2 ∧
    DispAction.attach "browser" ∉ (dispatchSend "browser" envDispProtoErr).2 := by
  have h := C9_listener_attach "browser" "Page" envListenOk envDispProtoErr rfl rfl
    (by decide)
  exact ⟨rfl, rfl, by decide, h.1, h.2⟩

end CDP
